import Mathlib

/-!
Shallow embedding of the realtime fan-out subsystem of
`src/backend/src/websocket/mod.rs` (streamline-scheduler backend).

Modelling conventions:
* `Uuid` values (user ids, connection ids) are modelled as `Nat`.
* The `tokio::sync::broadcast` channel created per session is modelled by a
  channel identifier (`ChanId`) plus an environment `Chans` mapping each
  identifier to its state: `alive` (at least one receiver exists, so
  `tx.send` succeeds) and `buffer` (the messages successfully sent into it).
  `send` on a channel with no live receiver returns an error and changes
  nothing, which is the only failure mode of `broadcast::Sender::send`.
* `HashMap<Uuid, Vec<WebSocketConnection>>` is modelled as an association
  list with (invariantly) pairwise-distinct keys; `entry().or_insert().push`
  and `get_mut`/`retain`/`remove` are translated entry by entry.
* `serde_json::Value` payloads of outbound events are opaque
  (`Option String`); the parsed first inbound frame is modelled by a small
  JSON value type, since the code only uses `.get("token")`/`.as_str()`.
-/

set_option autoImplicit false

namespace StreamlineWS

/-- Mirror of `WebSocketMessage` (the ChangeEvent fanned out to clients). -/
structure WebSocketMessage where
  event_type : String
  table : String
  user_id : Nat
  record_id : Option Nat
  data : Option String
deriving DecidableEq, Repr

/-- Identifier of one `tokio::sync::broadcast` channel. -/
abbrev ChanId := Nat

/-- State of one broadcast channel: whether a receiver is still alive (so
`tx.send` succeeds) and the list of messages successfully sent into it. -/
structure BroadcastChannel where
  alive : Bool
  buffer : List WebSocketMessage
deriving DecidableEq, Repr

/-- Environment of all broadcast channels, keyed by `ChanId`. -/
abbrev Chans := List (ChanId × BroadcastChannel)

/-- Mirror of `WebSocketConnection`: the registry stores the connection id
together with (a clone of) the sender handle `tx`, modelled by its id. -/
structure WebSocketConnection where
  tx : ChanId
  connection_id : Nat
deriving DecidableEq, Repr

/-- Mirror of `WebSocketState.connections`: `HashMap<Uuid, Vec<_>>` as an
association list from user id to that user's bucket of connections. -/
structure WebSocketState where
  connections : List (Nat × List WebSocketConnection)
deriving DecidableEq, Repr

/-- Mirror of `WebSocketState::new`. -/
def WebSocketState.new : WebSocketState := ⟨[]⟩

/-- First-match association-list lookup, the model of `HashMap::get`. -/
def assocFind (m : List (Nat × List WebSocketConnection)) (u : Nat) :
    Option (List WebSocketConnection) :=
  match m with
  | [] => none
  | (k, v) :: rest => if k = u then some v else assocFind rest u

/-- Bucket of user `u` in the registry (`connections.get(&user_id)`). -/
def WebSocketState.lookupBucket (st : WebSocketState) (u : Nat) :
    Option (List WebSocketConnection) :=
  assocFind st.connections u

/-- Model of `connections.entry(user_id).or_insert_with(Vec::new).push(conn)`:
push onto the existing bucket, or append a fresh singleton bucket. -/
def entryPush (m : List (Nat × List WebSocketConnection)) (u : Nat)
    (c : WebSocketConnection) : List (Nat × List WebSocketConnection) :=
  match m with
  | [] => [(u, [c])]
  | (k, v) :: rest =>
      if k = u then (k, v ++ [c]) :: rest else (k, v) :: entryPush rest u c

/-- Mirror of `WebSocketState::add_connection`. -/
def WebSocketState.add_connection (st : WebSocketState) (user_id : Nat)
    (connection_id : Nat) (tx : ChanId) : WebSocketState :=
  ⟨entryPush st.connections user_id ⟨tx, connection_id⟩⟩

/-- Model of the body of `WebSocketState::remove_connection`: on the entry for
`user_id`, retain the connections whose id differs, and drop the entry when
the retained bucket is empty. -/
def removeFrom (m : List (Nat × List WebSocketConnection)) (u : Nat)
    (cid : Nat) : List (Nat × List WebSocketConnection) :=
  match m with
  | [] => []
  | (k, v) :: rest =>
      if k = u then
        if (v.filter (fun c => c.connection_id ≠ cid)).isEmpty then rest
        else (k, v.filter (fun c => c.connection_id ≠ cid)) :: rest
      else (k, v) :: removeFrom rest u cid

/-- Mirror of `WebSocketState::remove_connection`. -/
def WebSocketState.remove_connection (st : WebSocketState) (user_id : Nat)
    (connection_id : Nat) : WebSocketState :=
  ⟨removeFrom st.connections user_id connection_id⟩

/-- Effect of one `ch.buffer`-level `tx.send(message)`: append when a receiver
is alive, otherwise the send errors and the channel is unchanged. -/
def sendOne (m : WebSocketMessage) (ch : BroadcastChannel) : BroadcastChannel :=
  if ch.alive then { ch with buffer := ch.buffer ++ [m] } else ch

/-- Model of `conn.tx.send(message)` inside the channel environment: the first
entry with the given id is updated by `sendOne`. -/
def chanSend (chans : Chans) (k : ChanId) (m : WebSocketMessage) : Chans :=
  match chans with
  | [] => []
  | (k', ch) :: rest =>
      if k' = k then (k', sendOne m ch) :: rest else (k', ch) :: chanSend rest k m

/-- Model of the skip test in `broadcast_to_user`: the connection matching
`exclude_connection_id` (when given) is skipped. -/
def excludedB (ex : Option Nat) (c : WebSocketConnection) : Bool :=
  match ex with
  | some e => c.connection_id == e
  | none => false

/-- The delivery loop of `broadcast_to_user` over one user's bucket: each
non-excluded connection gets one `tx.send`; send errors are only logged. -/
def sendAll (chans : Chans) (conns : List WebSocketConnection)
    (m : WebSocketMessage) (ex : Option Nat) : Chans :=
  match conns with
  | [] => chans
  | c :: rest =>
      if excludedB ex c then sendAll chans rest m ex
      else sendAll (chanSend chans c.tx m) rest m ex

/-- Mirror of `WebSocketState::broadcast_to_user`: reads the registry (shared
lock, no mutation of the map), loops over the user's bucket if present, and
returns without any error value. The registry part of the result is the
unchanged input map, reflecting the `&self`/read-lock access of the source. -/
def WebSocketState.broadcast_to_user (st : WebSocketState) (chans : Chans)
    (user_id : Nat) (message : WebSocketMessage) (exclude_connection_id : Option Nat) :
    WebSocketState × Chans :=
  match st.lookupBucket user_id with
  | some user_conns => (st, sendAll chans user_conns message exclude_connection_id)
  | none => (st, chans)

/-- First-match lookup in the channel environment. -/
def lookupChan (chans : Chans) (k : ChanId) : Option BroadcastChannel :=
  match chans with
  | [] => none
  | (k', ch) :: rest => if k' = k then some ch else lookupChan rest k

/-- Whether channel `k` is offered the message during a fan-out over `conns`
with exclusion `ex`: some connection uses `k` and is not excluded. -/
def offeredB (conns : List WebSocketConnection) (ex : Option Nat) (k : ChanId) : Bool :=
  conns.any (fun c => c.tx == k && !excludedB ex c)

/-- Minimal JSON value type, covering what the session reads off the parsed
first frame (`serde_json::Value` with `.get("token")` and `.as_str()`). -/
inductive JsonVal where
  | null
  | str (s : String)
  | num (n : Int)
  | boolean (b : Bool)
  | obj (fields : List (String × JsonVal))
deriving Repr

/-- Model of `Value::get(key)` on the parsed handshake frame: field lookup on
an object, `none` on every other shape. -/
def jsonGet (j : JsonVal) (key : String) : Option JsonVal :=
  match j with
  | .obj fields => go fields
  | _ => none
where
  go : List (String × JsonVal) → Option JsonVal
    | [] => none
    | (k, v) :: rest => if k = key then some v else go rest

/-- Model of `Value::as_str`. -/
def asStr (j : JsonVal) : Option String :=
  match j with
  | .str s => some s
  | _ => none

/-- Inbound WebSocket frame as the session sees it. A text frame carries the
result of `serde_json::from_str` on its payload (`none` = malformed JSON). -/
inductive Frame where
  | text (payload : Option JsonVal)
  | binary
  | close

/-- Frames the session writes (or attempts to write) back to the client
during the handshake. -/
inductive OutFrame where
  | authSuccess (user_id : Nat) (connection_id : Nat)
  | authError
deriving DecidableEq, Repr

/-- Which of the two racing loops of the operating phase finished first, and
how. The source's cleanup runs after `tokio::select!` in every case. -/
inductive LoopEnd where
  | sendTaskEnded
  | recvTaskEnded
  | sendTaskFailed
  | recvTaskFailed
deriving DecidableEq, Repr

/-- Result of one full run of `websocket_connection`: the registry and
channel environment it leaves behind, and the handshake frames it wrote. -/
structure SessionResult where
  st : WebSocketState
  chans : Chans
  sent : List OutFrame
deriving Repr

/-- Token extraction of the auth flow: the first inbound item must be an `Ok`
text frame whose payload parsed to JSON with a string-valued `token` field. -/
def authToken (firstFrame : Option (Except Unit Frame)) : Option String :=
  match firstFrame with
  | some (.ok (.text (some j))) => (jsonGet j "token").bind asStr
  | _ => none

/-- The user id the auth flow resolves: the extracted token as accepted by
`auth_service.get_user_from_token` (the external verifier `verify`). -/
def authUser (verify : String → Option Nat) (firstFrame : Option (Except Unit Frame)) :
    Option Nat :=
  (authToken firstFrame).bind verify

/-- Dropping the session's receiver `rx`: the channel stays in the
environment but no receiver is left, so later sends to it error. -/
def killChan (chans : Chans) (k : ChanId) : Chans :=
  chans.map (fun p => if p.1 = k then (p.1, { p.2 with alive := false }) else p)

/-- Mirror of `websocket_connection`. Inputs beyond the shared state: the
external token verifier, the first inbound item (`none` = stream ended before
a frame arrived, `Except.error` = a receive error), the freshly minted
connection id and broadcast channel id, whether the write of the
`auth_success` acknowledgement succeeds, and how the two-loop operating phase
ended. Control flow follows the source: a fresh channel is created; if
authentication resolves a user, `add_connection` runs, then the ack is sent —
on ack write failure the function returns at once; otherwise the two loops
race (their inbound text frames are informational only and never touch the
registry) and, whichever loop ended first and however, `remove_connection`
runs once before returning. On failed authentication one `auth_error` frame
is written and the function returns without any registry access. -/
def websocket_connection (st : WebSocketState) (chans : Chans)
    (verify : String → Option Nat) (firstFrame : Option (Except Unit Frame))
    (connection_id : Nat) (freshChan : ChanId) (authAckOk : Bool)
    (loopEnd : LoopEnd) : SessionResult :=
  let chans1 : Chans := chans ++ [(freshChan, ⟨true, []⟩)]
  match authUser verify firstFrame with
  | none =>
      { st := st, chans := killChan chans1 freshChan, sent := [.authError] }
  | some uid =>
      let st1 := st.add_connection uid connection_id freshChan
      if authAckOk then
        match loopEnd with
        | _ =>
            { st := st1.remove_connection uid connection_id
              chans := killChan chans1 freshChan
              sent := [.authSuccess uid connection_id] }
      else
        { st := st1, chans := killChan chans1 freshChan
          sent := [.authSuccess uid connection_id] }

/-- The (user id, connection id) pairs of one registry entry. -/
def bucketPairs (p : Nat × List WebSocketConnection) : List (Nat × Nat) :=
  p.2.map (fun c => (p.1, c.connection_id))

/-- All (user id, connection id) pairs currently in the registry. -/
def ownerPairs (st : WebSocketState) : List (Nat × Nat) :=
  st.connections.flatMap bucketPairs

/-- Registry invariant, first half: a user key is present in the mapping only
with a non-empty bucket (no empty buckets retained). -/
def noEmptyBuckets (st : WebSocketState) : Prop :=
  ∀ p ∈ st.connections, p.2 ≠ []

/-- HashMap structural invariant of the association-list model: the user keys
are pairwise distinct. -/
def keysNodup (st : WebSocketState) : Prop :=
  (st.connections.map Prod.fst).Nodup

/-- Registry invariant, second half: a given ConnectionId appears in at most
one user's bucket (any two occurrences of an id belong to the same user). -/
def uniqueOwner (st : WebSocketState) : Prop :=
  ∀ u v i, (u, i) ∈ ownerPairs st → (v, i) ∈ ownerPairs st → u = v

/-! Helper lemmas about the channel environment and the fan-out loop. -/

theorem lookupChan_chanSend_self (chans : Chans) (k : ChanId) (m : WebSocketMessage) :
    lookupChan (chanSend chans k m) k = (lookupChan chans k).map (sendOne m) := by
  induction chans with
  | nil => rfl
  | cons p rest ih =>
      obtain ⟨k', ch⟩ := p
      by_cases hk : k' = k
      · simp [chanSend, lookupChan, hk]
      · simp [chanSend, lookupChan, hk, ih]

theorem lookupChan_chanSend_ne (chans : Chans) (k k' : ChanId) (m : WebSocketMessage)
    (h : k' ≠ k) :
    lookupChan (chanSend chans k m) k' = lookupChan chans k' := by
  induction chans with
  | nil => rfl
  | cons p rest ih =>
      obtain ⟨k'', ch⟩ := p
      by_cases hk : k'' = k
      · subst hk
        simp [chanSend, lookupChan, Ne.symm h]
      · by_cases hk' : k'' = k'
        · simp [chanSend, lookupChan, hk, hk', h]
        · simp [chanSend, lookupChan, hk, hk', ih]

theorem sendAll_lookupChan (conns : List WebSocketConnection) (chans : Chans)
    (m : WebSocketMessage) (ex : Option Nat) (k : ChanId)
    (hnd : (conns.map WebSocketConnection.tx).Nodup) :
    lookupChan (sendAll chans conns m ex) k =
      if offeredB conns ex k then (lookupChan chans k).map (sendOne m)
      else lookupChan chans k := by
  induction conns generalizing chans with
  | nil => simp [sendAll, offeredB]
  | cons c rest ih =>
      simp only [List.map_cons, List.nodup_cons] at hnd
      obtain ⟨htx, hnd'⟩ := hnd
      by_cases hex : excludedB ex c
      · have hoff : offeredB (c :: rest) ex k = offeredB rest ex k := by
          simp [offeredB, hex]
        rw [hoff]
        simp only [sendAll, hex, if_pos rfl]
        exact ih chans hnd'
      · simp only [sendAll, hex]
        rw [if_neg (by simp [hex])]
        by_cases hk : c.tx = k
        · subst hk
          have hoffrest : offeredB rest ex c.tx = false := by
            simp only [offeredB, List.any_eq_false]
            intro c' hc'
            simp only [Bool.and_eq_true, beq_iff_eq, Bool.not_eq_eq_eq_not,
              Bool.not_true, not_and]
            intro htx'
            exact absurd (htx' ▸ (List.mem_map_of_mem WebSocketConnection.tx hc') :
              c.tx ∈ rest.map WebSocketConnection.tx) htx
          rw [ih (chanSend chans c.tx m) hnd', hoffrest]
          simp only [Bool.false_eq_true, if_false]
          rw [if_pos (by simp [offeredB, hex])]
          exact lookupChan_chanSend_self chans c.tx m
        · have hoff : offeredB (c :: rest) ex k = offeredB rest ex k := by
            simp [offeredB, hk, hex]
          rw [hoff, ih (chanSend chans c.tx m) hnd',
            lookupChan_chanSend_ne chans c.tx k m (fun hh => hk hh.symm)]

/-! Helper lemmas about the registry association list. -/

theorem removeFrom_cons_self (k : Nat) (v : List WebSocketConnection)
    (rest : List (Nat × List WebSocketConnection)) (cid : Nat) :
    removeFrom ((k, v) :: rest) k cid =
      if (v.filter (fun c => c.connection_id ≠ cid)).isEmpty then rest
      else (k, v.filter (fun c => c.connection_id ≠ cid)) :: rest := by
  rw [removeFrom, if_pos rfl]

theorem removeFrom_cons_ne (k u : Nat) (v : List WebSocketConnection)
    (rest : List (Nat × List WebSocketConnection)) (cid : Nat) (h : k ≠ u) :
    removeFrom ((k, v) :: rest) u cid = (k, v) :: removeFrom rest u cid := by
  rw [removeFrom, if_neg h]

theorem entryPush_cons_self (k : Nat) (v : List WebSocketConnection)
    (rest : List (Nat × List WebSocketConnection)) (c : WebSocketConnection) :
    entryPush ((k, v) :: rest) k c = (k, v ++ [c]) :: rest := by
  rw [entryPush, if_pos rfl]

theorem entryPush_cons_ne (k u : Nat) (v : List WebSocketConnection)
    (rest : List (Nat × List WebSocketConnection)) (c : WebSocketConnection)
    (h : k ≠ u) :
    entryPush ((k, v) :: rest) u c = (k, v) :: entryPush rest u c := by
  rw [entryPush, if_neg h]

theorem assocFind_cons_self (k : Nat) (v : List WebSocketConnection)
    (rest : List (Nat × List WebSocketConnection)) :
    assocFind ((k, v) :: rest) k = some v := by
  rw [assocFind, if_pos rfl]

theorem assocFind_cons_ne (k u : Nat) (v : List WebSocketConnection)
    (rest : List (Nat × List WebSocketConnection)) (h : k ≠ u) :
    assocFind ((k, v) :: rest) u = assocFind rest u := by
  rw [assocFind, if_neg h]

theorem assocFind_entryPush_self (m : List (Nat × List WebSocketConnection))
    (u : Nat) (c : WebSocketConnection) :
    assocFind (entryPush m u c) u = some (((assocFind m u).getD []) ++ [c]) := by
  induction m with
  | nil => simp [entryPush, assocFind]
  | cons p rest ih =>
      obtain ⟨k, v⟩ := p
      by_cases hk : k = u
      · simp [entryPush, assocFind, hk]
      · simp [entryPush, assocFind, hk, ih]

theorem assocFind_entryPush_ne (m : List (Nat × List WebSocketConnection))
    (u v : Nat) (c : WebSocketConnection) (h : v ≠ u) :
    assocFind (entryPush m u c) v = assocFind m v := by
  induction m with
  | nil => simp [entryPush, assocFind, Ne.symm h]
  | cons p rest ih =>
      obtain ⟨k, w⟩ := p
      by_cases hk : k = u
      · subst hk
        simp [entryPush, assocFind, Ne.symm h]
      · by_cases hv : k = v
        · simp [entryPush, assocFind, hk, hv, h]
        · simp [entryPush, assocFind, hk, hv, ih]

theorem entryPush_absent (m : List (Nat × List WebSocketConnection))
    (u : Nat) (c : WebSocketConnection) (h : assocFind m u = none) :
    entryPush m u c = m ++ [(u, [c])] := by
  induction m with
  | nil => rfl
  | cons p rest ih =>
      obtain ⟨k, v⟩ := p
      simp only [assocFind] at h
      by_cases hk : k = u
      · rw [if_pos hk] at h
        cases h
      · rw [if_neg hk] at h
        simp [entryPush, hk, ih h]

theorem removeFrom_append_single (m : List (Nat × List WebSocketConnection))
    (u cid : Nat) (ch : ChanId) (h : assocFind m u = none) :
    removeFrom (m ++ [(u, [⟨ch, cid⟩])]) u cid = m := by
  induction m with
  | nil => simp [removeFrom, List.filter]
  | cons p rest ih =>
      obtain ⟨k, v⟩ := p
      simp only [assocFind] at h
      by_cases hk : k = u
      · rw [if_pos hk] at h
        cases h
      · rw [if_neg hk] at h
        simp [removeFrom, hk, ih h]

theorem assocFind_removeFrom_ne (m : List (Nat × List WebSocketConnection))
    (u v cid : Nat) (h : v ≠ u) :
    assocFind (removeFrom m u cid) v = assocFind m v := by
  induction m with
  | nil => rfl
  | cons p rest ih =>
      obtain ⟨k, w⟩ := p
      by_cases hk : k = u
      · subst hk
        have hkv : k ≠ v := fun hh => h hh.symm
        rw [removeFrom_cons_self, assocFind_cons_ne k v w rest hkv]
        by_cases he : (w.filter (fun c => c.connection_id ≠ cid)).isEmpty
        · rw [if_pos he]
        · rw [if_neg he, assocFind_cons_ne k v _ rest hkv]
      · rw [removeFrom_cons_ne k u w rest cid hk]
        by_cases hv : k = v
        · subst hv
          rw [assocFind_cons_self, assocFind_cons_self]
        · rw [assocFind_cons_ne k v w _ hv, assocFind_cons_ne k v w rest hv, ih]

theorem removeFrom_no_such_id (m : List (Nat × List WebSocketConnection))
    (u cid : Nat) (hne : ∀ p ∈ m, p.2 ≠ [])
    (habs : ∀ v, assocFind m u = some v →
      cid ∉ v.map WebSocketConnection.connection_id) :
    removeFrom m u cid = m := by
  induction m with
  | nil => rfl
  | cons p rest ih =>
      obtain ⟨k, v⟩ := p
      by_cases hk : k = u
      · subst hk
        have hid : cid ∉ v.map WebSocketConnection.connection_id :=
          habs v (assocFind_cons_self k v rest)
        have hfil : v.filter (fun c => c.connection_id ≠ cid) = v := by
          apply List.filter_eq_self.mpr
          intro c hc
          have hcc : c.connection_id ≠ cid := fun hcc =>
            hid (hcc ▸ List.mem_map_of_mem WebSocketConnection.connection_id hc)
          simpa using hcc
        have hv : v ≠ [] := hne (k, v) (List.mem_cons_self _ _)
        have hemp : (v.filter (fun c => c.connection_id ≠ cid)).isEmpty = false := by
          rw [hfil]
          cases v with
          | nil => exact absurd rfl hv
          | cons a t => rfl
        rw [removeFrom_cons_self, hemp, if_neg (by simp), hfil]
      · have hrest : removeFrom rest u cid = rest := by
          apply ih
          · intro q hq
            exact hne q (List.mem_cons_of_mem _ hq)
          · intro w hw
            apply habs w
            rw [assocFind_cons_ne k u v rest hk]
            exact hw
        rw [removeFrom_cons_ne k u v rest cid hk, hrest]

/-! Helper lemmas about the registry invariants of §3 of the spec. -/

theorem mem_flatMap_entryPush (m : List (Nat × List WebSocketConnection))
    (u : Nat) (c : WebSocketConnection) (x : Nat × Nat) :
    x ∈ (entryPush m u c).flatMap bucketPairs ↔
      x ∈ m.flatMap bucketPairs ∨ x = (u, c.connection_id) := by
  induction m with
  | nil => simp [entryPush, bucketPairs]
  | cons p rest ih =>
      obtain ⟨k, v⟩ := p
      by_cases hk : k = u
      · subst hk
        rw [entryPush_cons_self]
        simp only [List.flatMap_cons, bucketPairs, List.map_append, List.map_cons,
          List.map_nil, List.mem_append, List.mem_singleton]
        tauto
      · rw [entryPush_cons_ne k u v rest c hk]
        simp only [List.flatMap_cons, List.mem_append, ih]
        tauto

theorem mem_flatMap_removeFrom (m : List (Nat × List WebSocketConnection))
    (u cid : Nat) (x : Nat × Nat)
    (hx : x ∈ (removeFrom m u cid).flatMap bucketPairs) :
    x ∈ m.flatMap bucketPairs := by
  induction m with
  | nil =>
      rw [removeFrom] at hx
      exact hx
  | cons p rest ih =>
      obtain ⟨k, v⟩ := p
      by_cases hk : k = u
      · subst hk
        rw [removeFrom_cons_self] at hx
        simp only [List.flatMap_cons, List.mem_append]
        by_cases he : (v.filter (fun c => c.connection_id ≠ cid)).isEmpty
        · rw [if_pos he] at hx
          exact Or.inr hx
        · rw [if_neg he] at hx
          simp only [List.flatMap_cons, List.mem_append] at hx
          rcases hx with h1 | h2
          · left
            simp only [bucketPairs, List.mem_map] at h1 ⊢
            obtain ⟨c, hc, hcx⟩ := h1
            exact ⟨c, List.mem_of_mem_filter hc, hcx⟩
          · exact Or.inr h2
      · rw [removeFrom_cons_ne k u v rest cid hk] at hx
        simp only [List.flatMap_cons, List.mem_append] at hx ⊢
        rcases hx with h1 | h2
        · exact Or.inl h1
        · exact Or.inr (ih h2)

theorem mem_keys_entryPush (m : List (Nat × List WebSocketConnection))
    (u : Nat) (c : WebSocketConnection) (k : Nat)
    (h : k ∈ (entryPush m u c).map Prod.fst) :
    k ∈ m.map Prod.fst ∨ k = u := by
  induction m with
  | nil =>
      simp only [entryPush, List.map_cons, List.map_nil, List.mem_cons,
        List.not_mem_nil, or_false] at h
      exact Or.inr h
  | cons p rest ih =>
      obtain ⟨k', v⟩ := p
      by_cases hk : k' = u
      · subst hk
        rw [entryPush_cons_self] at h
        simp only [List.map_cons, List.mem_cons] at h
        simp only [List.map_cons, List.mem_cons]
        tauto
      · rw [entryPush_cons_ne k' u v rest c hk] at h
        simp only [List.map_cons, List.mem_cons] at h
        simp only [List.map_cons, List.mem_cons]
        rcases h with h | h
        · exact Or.inl (Or.inl h)
        · rcases ih h with h' | h'
          · exact Or.inl (Or.inr h')
          · exact Or.inr h'

theorem keysNodup_entryPush (m : List (Nat × List WebSocketConnection))
    (u : Nat) (c : WebSocketConnection) (h : (m.map Prod.fst).Nodup) :
    ((entryPush m u c).map Prod.fst).Nodup := by
  induction m with
  | nil => simp [entryPush]
  | cons p rest ih =>
      obtain ⟨k, v⟩ := p
      simp only [List.map_cons, List.nodup_cons] at h
      obtain ⟨hkn, hrest⟩ := h
      by_cases hk : k = u
      · subst hk
        rw [entryPush_cons_self]
        simp only [List.map_cons, List.nodup_cons]
        exact ⟨hkn, hrest⟩
      · rw [entryPush_cons_ne k u v rest c hk]
        simp only [List.map_cons, List.nodup_cons]
        refine ⟨?_, ih hrest⟩
        intro hmem
        rcases mem_keys_entryPush rest u c k hmem with h' | h'
        · exact hkn h'
        · exact hk h'

theorem keys_removeFrom_sublist (m : List (Nat × List WebSocketConnection))
    (u cid : Nat) :
    ((removeFrom m u cid).map Prod.fst).Sublist (m.map Prod.fst) := by
  induction m with
  | nil => simp [removeFrom]
  | cons p rest ih =>
      obtain ⟨k, v⟩ := p
      by_cases hk : k = u
      · subst hk
        rw [removeFrom_cons_self]
        by_cases he : (v.filter (fun c => c.connection_id ≠ cid)).isEmpty
        · rw [if_pos he]
          exact List.sublist_cons_of_sublist k (List.Sublist.refl _)
        · rw [if_neg he]
          simp only [List.map_cons]
          exact List.Sublist.cons₂ k (List.Sublist.refl _)
      · rw [removeFrom_cons_ne k u v rest cid hk]
        simp only [List.map_cons]
        exact List.Sublist.cons₂ k ih

theorem noEmpty_entryPush (m : List (Nat × List WebSocketConnection))
    (u : Nat) (c : WebSocketConnection) (h : ∀ p ∈ m, p.2 ≠ []) :
    ∀ p ∈ entryPush m u c, p.2 ≠ [] := by
  induction m with
  | nil =>
      intro p hp
      simp only [entryPush, List.mem_cons, List.not_mem_nil, or_false] at hp
      subst hp
      simp
  | cons q rest ih =>
      obtain ⟨k, v⟩ := q
      intro p hp
      by_cases hk : k = u
      · subst hk
        rw [entryPush_cons_self] at hp
        rcases List.mem_cons.mp hp with hp' | hp'
        · subst hp'
          simp
        · exact h p (List.mem_cons_of_mem _ hp')
      · rw [entryPush_cons_ne k u v rest c hk] at hp
        rcases List.mem_cons.mp hp with hp' | hp'
        · subst hp'
          exact h (k, v) (List.mem_cons_self _ _)
        · exact ih (fun q hq => h q (List.mem_cons_of_mem _ hq)) p hp'

theorem noEmpty_removeFrom (m : List (Nat × List WebSocketConnection))
    (u cid : Nat) (h : ∀ p ∈ m, p.2 ≠ []) :
    ∀ p ∈ removeFrom m u cid, p.2 ≠ [] := by
  induction m with
  | nil =>
      intro p hp
      simp [removeFrom] at hp
  | cons q rest ih =>
      obtain ⟨k, v⟩ := q
      intro p hp
      by_cases hk : k = u
      · subst hk
        rw [removeFrom_cons_self] at hp
        by_cases he : (v.filter (fun c => c.connection_id ≠ cid)).isEmpty
        · rw [if_pos he] at hp
          exact h p (List.mem_cons_of_mem _ hp)
        · rw [if_neg he] at hp
          rcases List.mem_cons.mp hp with hp' | hp'
          · subst hp'
            intro hnil
            apply he
            have hn : v.filter (fun c => c.connection_id ≠ cid) = [] := hnil
            rw [hn]
            rfl
          · exact h p (List.mem_cons_of_mem _ hp')
      · rw [removeFrom_cons_ne k u v rest cid hk] at hp
        rcases List.mem_cons.mp hp with hp' | hp'
        · subst hp'
          exact h (k, v) (List.mem_cons_self _ _)
        · exact ih (fun q hq => h q (List.mem_cons_of_mem _ hq)) p hp'

theorem broadcast_registry_unchanged (st : WebSocketState) (chans : Chans)
    (u : Nat) (m : WebSocketMessage) (ex : Option Nat) :
    (st.broadcast_to_user chans u m ex).1 = st := by
  unfold WebSocketState.broadcast_to_user
  cases st.lookupBucket u <;> rfl

theorem assocFind_none_of_not_mem_keys (m : List (Nat × List WebSocketConnection))
    (u : Nat) (h : u ∉ m.map Prod.fst) : assocFind m u = none := by
  induction m with
  | nil => rfl
  | cons p rest ih =>
      obtain ⟨k, v⟩ := p
      simp only [List.map_cons, List.mem_cons] at h
      push_neg at h
      rw [assocFind_cons_ne k u v rest (fun hh => h.1 hh.symm)]
      exact ih h.2

theorem removeFrom_clears_id (m : List (Nat × List WebSocketConnection))
    (u cid : Nat) (hnd : (m.map Prod.fst).Nodup) :
    ∀ v', assocFind (removeFrom m u cid) u = some v' →
      cid ∉ v'.map WebSocketConnection.connection_id := by
  induction m with
  | nil =>
      intro v' hv'
      rw [removeFrom] at hv'
      cases hv'
  | cons p rest ih =>
      obtain ⟨k, v⟩ := p
      simp only [List.map_cons, List.nodup_cons] at hnd
      obtain ⟨hkn, hrest⟩ := hnd
      intro v' hv'
      by_cases hk : k = u
      · subst hk
        rw [removeFrom_cons_self] at hv'
        by_cases he : (v.filter (fun c => c.connection_id ≠ cid)).isEmpty
        · rw [if_pos he, assocFind_none_of_not_mem_keys rest k hkn] at hv'
          cases hv'
        · rw [if_neg he, assocFind_cons_self] at hv'
          cases hv'
          intro hmem
          simp only [List.mem_map] at hmem
          obtain ⟨c, hc, hcc⟩ := hmem
          have := List.of_mem_filter hc
          simp only [ne_eq, decide_not, Bool.not_eq_eq_eq_not, Bool.not_true,
            decide_eq_false_iff_not] at this
          exact absurd hcc this
      · rw [removeFrom_cons_ne k u v rest cid hk, assocFind_cons_ne k u v _ hk] at hv'
        exact ih hrest v' hv'

theorem remove_connection_noop (st : WebSocketState) (u cid : Nat)
    (hne : noEmptyBuckets st)
    (habs : ∀ v, st.lookupBucket u = some v →
      cid ∉ v.map WebSocketConnection.connection_id) :
    st.remove_connection u cid = st := by
  obtain ⟨conns⟩ := st
  unfold WebSocketState.remove_connection
  congr 1
  exact removeFrom_no_such_id conns u cid hne habs

/-! Claim theorems for the ConnectionRegistry. -/

/-- C5: starting from a registry in which user U has no bucket, `register(U,C)`
immediately followed by `deregister(U,C)` leaves the registry with no bucket
for U — the key is fully removed, not left as an empty collection. -/
theorem register_deregister_removes_bucket (st : WebSocketState) (u cid : Nat)
    (ch : ChanId) (h : st.lookupBucket u = none) :
    ((st.add_connection u cid ch).remove_connection u cid).lookupBucket u = none := by
  unfold WebSocketState.add_connection WebSocketState.remove_connection
    WebSocketState.lookupBucket at *
  rw [entryPush_absent st.connections u ⟨ch, cid⟩ h,
    removeFrom_append_single st.connections u cid ch h]
  exact h

theorem register_deregister_removes_bucket_witness :
    (((WebSocketState.mk [(9, [⟨0, 1⟩])]).add_connection 3 5
        2).remove_connection 3 5).lookupBucket 3 = none :=
  register_deregister_removes_bucket ⟨[(9, [⟨0, 1⟩])]⟩ 3 5 2 (by decide)

/-- C6: `deregister(U,C)` is idempotent: when C is absent from U's bucket
(including when U has no bucket) it is a no-op leaving the registry unchanged,
and hence — on a well-formed registry — a second deregister of the same
connection after a first one changes nothing. -/
theorem deregister_idempotent (st : WebSocketState) (u cid : Nat)
    (hne : noEmptyBuckets st) :
    ((∀ v, st.lookupBucket u = some v →
        cid ∉ v.map WebSocketConnection.connection_id) →
      st.remove_connection u cid = st) ∧
    (keysNodup st →
      (st.remove_connection u cid).remove_connection u cid =
        st.remove_connection u cid) := by
  constructor
  · intro habs
    exact remove_connection_noop st u cid hne habs
  · intro hknd
    apply remove_connection_noop (st.remove_connection u cid) u cid
    · exact noEmpty_removeFrom st.connections u cid hne
    · exact removeFrom_clears_id st.connections u cid hknd

theorem deregister_idempotent_witness :
    ((WebSocketState.mk [(4, [⟨0, 8⟩])]).remove_connection 4 5 =
        WebSocketState.mk [(4, [⟨0, 8⟩])]) ∧
    (((WebSocketState.mk [(4, [⟨0, 8⟩])]).remove_connection 4 8).remove_connection
        4 8 = (WebSocketState.mk [(4, [⟨0, 8⟩])]).remove_connection 4 8) := by
  have h5 := deregister_idempotent ⟨[(4, [⟨0, 8⟩])]⟩ 4 5
    (by unfold noEmptyBuckets; decide)
  have h8 := deregister_idempotent ⟨[(4, [⟨0, 8⟩])]⟩ 4 8
    (by unfold noEmptyBuckets; decide)
  refine ⟨h5.1 ?_, h8.2 (by unfold keysNodup; decide)⟩
  intro v hv
  have hv' : some [(⟨0, 8⟩ : WebSocketConnection)] = some v := hv
  cases hv'
  decide

/-- C7 counterexample: registering connection id 5 for user 0 a second time
(channel 2, while channel 1 is still registered) does not make channel 2 the
single entry for that id: the bucket holds both entries, and one subsequent
fan-out offers the event to the connection id twice, once per entry. -/
theorem duplicate_register_not_last_wins :
    ((WebSocketState.new.add_connection 0 5 1).add_connection 0 5 2).lookupBucket 0 =
        some [⟨1, 5⟩, ⟨2, 5⟩] ∧
    ((WebSocketState.new.add_connection 0 5 1).add_connection 0 5 2).lookupBucket 0 ≠
        some [⟨2, 5⟩] ∧
    lookupChan (((WebSocketState.new.add_connection 0 5 1).add_connection
        0 5 2).broadcast_to_user [(1, ⟨true, []⟩), (2, ⟨true, []⟩)] 0
        ⟨"INSERT", "projects", 0, none, none⟩ none).2 1 =
      some ⟨true, [⟨"INSERT", "projects", 0, none, none⟩]⟩ ∧
    lookupChan (((WebSocketState.new.add_connection 0 5 1).add_connection
        0 5 2).broadcast_to_user [(1, ⟨true, []⟩), (2, ⟨true, []⟩)] 0
        ⟨"INSERT", "projects", 0, none, none⟩ none).2 2 =
      some ⟨true, [⟨"INSERT", "projects", 0, none, none⟩]⟩ := by
  refine ⟨by decide, by decide, by decide, by decide⟩

/-- C7 amended: a duplicate registration of an already-registered connection
id does not corrupt the registry structurally, but the last registration does
not win: the new record is appended, so both entries remain in the user's
bucket. -/
theorem duplicate_register_appends (st : WebSocketState) (u cid : Nat)
    (ch2 : ChanId) (v : List WebSocketConnection)
    (hb : st.lookupBucket u = some v)
    (hdup : cid ∈ v.map WebSocketConnection.connection_id) :
    (st.add_connection u cid ch2).lookupBucket u = some (v ++ [⟨ch2, cid⟩]) := by
  unfold WebSocketState.add_connection WebSocketState.lookupBucket at *
  rw [assocFind_entryPush_self st.connections u ⟨ch2, cid⟩, hb]
  rfl

theorem duplicate_register_appends_witness :
    ((WebSocketState.mk [(0, [⟨1, 5⟩])]).add_connection 0 5 2).lookupBucket 0 =
      some [⟨1, 5⟩, ⟨2, 5⟩] :=
  duplicate_register_appends ⟨[(0, [⟨1, 5⟩])]⟩ 0 5 2 [⟨1, 5⟩] (by decide) (by decide)

/-- C9: the registry invariants — every present user key has a non-empty
bucket, the keys are pairwise distinct, and (assuming each connection id is
only ever registered for one user) a connection id lives in at most one
user's bucket — hold for the empty registry and are preserved by
`add_connection`, by `remove_connection`, and by `broadcast_to_user`, which
leaves the mapping untouched. -/
theorem registry_invariants_preserved :
    (noEmptyBuckets WebSocketState.new ∧ keysNodup WebSocketState.new ∧
      uniqueOwner WebSocketState.new) ∧
    (∀ (st : WebSocketState) (u cid : Nat) (ch : ChanId),
      noEmptyBuckets st → keysNodup st → uniqueOwner st →
      (∀ w, (w, cid) ∈ ownerPairs st → w = u) →
      noEmptyBuckets (st.add_connection u cid ch) ∧
        keysNodup (st.add_connection u cid ch) ∧
        uniqueOwner (st.add_connection u cid ch)) ∧
    (∀ (st : WebSocketState) (u cid : Nat),
      noEmptyBuckets st → keysNodup st → uniqueOwner st →
      noEmptyBuckets (st.remove_connection u cid) ∧
        keysNodup (st.remove_connection u cid) ∧
        uniqueOwner (st.remove_connection u cid)) ∧
    (∀ (st : WebSocketState) (chans : Chans) (u : Nat) (msg : WebSocketMessage)
      (ex : Option Nat), (st.broadcast_to_user chans u msg ex).1 = st) := by
  refine ⟨⟨?_, ?_, ?_⟩, ?_, ?_, ?_⟩
  · intro p hp
    cases hp
  · simp [keysNodup, WebSocketState.new]
  · intro a b i ha _
    simp [ownerPairs, WebSocketState.new] at ha
  · intro st u cid ch hne hknd huo hfresh
    refine ⟨noEmpty_entryPush st.connections u ⟨ch, cid⟩ hne,
      keysNodup_entryPush st.connections u ⟨ch, cid⟩ hknd, ?_⟩
    intro a b i ha hb
    have ha' : (a, i) ∈ st.connections.flatMap bucketPairs ∨ (a, i) = (u, cid) :=
      (mem_flatMap_entryPush st.connections u ⟨ch, cid⟩ (a, i)).mp ha
    have hb' : (b, i) ∈ st.connections.flatMap bucketPairs ∨ (b, i) = (u, cid) :=
      (mem_flatMap_entryPush st.connections u ⟨ch, cid⟩ (b, i)).mp hb
    rcases ha' with ha' | ha' <;> rcases hb' with hb' | hb'
    · exact huo a b i ha' hb'
    · obtain ⟨hbu, hic⟩ := Prod.mk.injEq .. ▸ hb'
      subst hic
      exact (hfresh a ha').trans hbu.symm
    · obtain ⟨hau, hic⟩ := Prod.mk.injEq .. ▸ ha'
      subst hic
      exact hau.trans (hfresh b hb').symm
    · obtain ⟨hau, _⟩ := Prod.mk.injEq .. ▸ ha'
      obtain ⟨hbu, _⟩ := Prod.mk.injEq .. ▸ hb'
      exact hau.trans hbu.symm
  · intro st u cid hne hknd huo
    refine ⟨noEmpty_removeFrom st.connections u cid hne, ?_, ?_⟩
    · exact (keys_removeFrom_sublist st.connections u cid).nodup hknd
    · intro a b i ha hb
      exact huo a b i (mem_flatMap_removeFrom st.connections u cid (a, i) ha)
        (mem_flatMap_removeFrom st.connections u cid (b, i) hb)
  · intro st chans u msg ex
    exact broadcast_registry_unchanged st chans u msg ex

theorem registry_invariants_preserved_witness :
    noEmptyBuckets (WebSocketState.new.add_connection 3 5 0) ∧
      keysNodup (WebSocketState.new.add_connection 3 5 0) ∧
      uniqueOwner (WebSocketState.new.add_connection 3 5 0) := by
  have hbase := registry_invariants_preserved.1
  exact registry_invariants_preserved.2.1 WebSocketState.new 3 5 0 hbase.1
    hbase.2.1 hbase.2.2 (fun w hw => by simp [ownerPairs, WebSocketState.new] at hw)

/-- C10: frame property — for a user V different from U, `register(U,C)` and
`deregister(U,C)` leave V's bucket (records included) unchanged, and
`fanout(U,E,exclude)` leaves the whole registry mapping unchanged. -/
theorem registry_frame_property (st : WebSocketState) (u v cid : Nat)
    (ch : ChanId) (huv : v ≠ u) :
    (st.add_connection u cid ch).lookupBucket v = st.lookupBucket v ∧
    (st.remove_connection u cid).lookupBucket v = st.lookupBucket v ∧
    ∀ chans msg ex, (st.broadcast_to_user chans u msg ex).1 = st := by
  refine ⟨?_, ?_, ?_⟩
  · exact assocFind_entryPush_ne st.connections u v ⟨ch, cid⟩ huv
  · exact assocFind_removeFrom_ne st.connections u v cid huv
  · intro chans msg ex
    exact broadcast_registry_unchanged st chans u msg ex

theorem registry_frame_property_witness :
    ((WebSocketState.mk [(2, [⟨7, 4⟩])]).add_connection 1 6 3).lookupBucket 2 =
        (WebSocketState.mk [(2, [⟨7, 4⟩])]).lookupBucket 2 ∧
    ((WebSocketState.mk [(2, [⟨7, 4⟩])]).remove_connection 1 6).lookupBucket 2 =
        (WebSocketState.mk [(2, [⟨7, 4⟩])]).lookupBucket 2 ∧
    ∀ chans msg ex,
      ((WebSocketState.mk [(2, [⟨7, 4⟩])]).broadcast_to_user chans 1 msg ex).1 =
        WebSocketState.mk [(2, [⟨7, 4⟩])] :=
  registry_frame_property ⟨[(2, [⟨7, 4⟩])]⟩ 1 2 6 3 (by decide)

theorem offeredB_of_mem (conns : List WebSocketConnection) (ex : Option Nat)
    (c : WebSocketConnection) (hc : c ∈ conns) (hex : excludedB ex c = false) :
    offeredB conns ex c.tx = true := by
  simp only [offeredB, List.any_eq_true]
  exact ⟨c, hc, by simp [hex]⟩

theorem offeredB_of_not_mem (conns : List WebSocketConnection) (ex : Option Nat)
    (k : ChanId) (hk : k ∉ conns.map WebSocketConnection.tx) :
    offeredB conns ex k = false := by
  simp only [offeredB, List.any_eq_false]
  intro c hc
  simp only [Bool.and_eq_true, beq_iff_eq, Bool.not_eq_eq_eq_not, Bool.not_true,
    not_and]
  intro htx
  exact absurd (htx ▸ List.mem_map_of_mem WebSocketConnection.tx hc) hk

/-! Claim theorems for the fan-out operation. -/

/-- C2: with connections `c1, c2, c3` (distinct ids, distinct live channels)
registered under user `u`, `broadcast_to_user` with `exclude = c1` appends
exactly one copy of the event to the channels of `c2` and `c3` and leaves
`c1`'s channel untouched. -/
theorem fanout_exclusion_correct (st : WebSocketState) (chans : Chans) (u : Nat)
    (c1 c2 c3 : WebSocketConnection) (E : WebSocketMessage)
    (ch1 ch2 ch3 : BroadcastChannel)
    (hb : st.lookupBucket u = some [c1, c2, c3])
    (h12 : c1.connection_id ≠ c2.connection_id)
    (h13 : c1.connection_id ≠ c3.connection_id)
    (ht12 : c1.tx ≠ c2.tx) (ht13 : c1.tx ≠ c3.tx) (ht23 : c2.tx ≠ c3.tx)
    (hc1 : lookupChan chans c1.tx = some ch1)
    (hc2 : lookupChan chans c2.tx = some ch2) (ha2 : ch2.alive = true)
    (hc3 : lookupChan chans c3.tx = some ch3) (ha3 : ch3.alive = true) :
    lookupChan (st.broadcast_to_user chans u E (some c1.connection_id)).2 c2.tx =
        some { ch2 with buffer := ch2.buffer ++ [E] } ∧
    lookupChan (st.broadcast_to_user chans u E (some c1.connection_id)).2 c3.tx =
        some { ch3 with buffer := ch3.buffer ++ [E] } ∧
    lookupChan (st.broadcast_to_user chans u E (some c1.connection_id)).2 c1.tx =
        some ch1 := by
  have hnd : ([c1, c2, c3].map WebSocketConnection.tx).Nodup := by
    simp [ht12, ht13, ht23]
  have hbr : (st.broadcast_to_user chans u E (some c1.connection_id)).2 =
      sendAll chans [c1, c2, c3] E (some c1.connection_id) := by
    unfold WebSocketState.broadcast_to_user
    rw [hb]
  rw [hbr]
  refine ⟨?_, ?_, ?_⟩
  · rw [sendAll_lookupChan [c1, c2, c3] chans E (some c1.connection_id) c2.tx hnd]
    have hoff : offeredB [c1, c2, c3] (some c1.connection_id) c2.tx = true :=
      offeredB_of_mem _ _ c2 (by simp) (by simp [excludedB, Ne.symm h12])
    rw [hoff, if_pos rfl, hc2]
    simp [sendOne, ha2]
  · rw [sendAll_lookupChan [c1, c2, c3] chans E (some c1.connection_id) c3.tx hnd]
    have hoff : offeredB [c1, c2, c3] (some c1.connection_id) c3.tx = true :=
      offeredB_of_mem _ _ c3 (by simp) (by simp [excludedB, Ne.symm h13])
    rw [hoff, if_pos rfl, hc3]
    simp [sendOne, ha3]
  · rw [sendAll_lookupChan [c1, c2, c3] chans E (some c1.connection_id) c1.tx hnd]
    have hoff : offeredB [c1, c2, c3] (some c1.connection_id) c1.tx = false := by
      simp [offeredB, excludedB, Ne.symm ht12, Ne.symm ht13]
    rw [hoff]
    simp [hc1]

theorem fanout_exclusion_correct_witness :
    lookupChan ((WebSocketState.mk
        [(1, [⟨10, 100⟩, ⟨20, 200⟩, ⟨30, 300⟩])]).broadcast_to_user
        [(10, ⟨true, []⟩), (20, ⟨true, []⟩), (30, ⟨true, []⟩)] 1
        ⟨"UPDATE", "tasks", 1, some 42, none⟩ (some 100)).2 20 =
      some ⟨true, [⟨"UPDATE", "tasks", 1, some 42, none⟩]⟩ ∧
    lookupChan ((WebSocketState.mk
        [(1, [⟨10, 100⟩, ⟨20, 200⟩, ⟨30, 300⟩])]).broadcast_to_user
        [(10, ⟨true, []⟩), (20, ⟨true, []⟩), (30, ⟨true, []⟩)] 1
        ⟨"UPDATE", "tasks", 1, some 42, none⟩ (some 100)).2 30 =
      some ⟨true, [⟨"UPDATE", "tasks", 1, some 42, none⟩]⟩ ∧
    lookupChan ((WebSocketState.mk
        [(1, [⟨10, 100⟩, ⟨20, 200⟩, ⟨30, 300⟩])]).broadcast_to_user
        [(10, ⟨true, []⟩), (20, ⟨true, []⟩), (30, ⟨true, []⟩)] 1
        ⟨"UPDATE", "tasks", 1, some 42, none⟩ (some 100)).2 10 =
      some ⟨true, []⟩ :=
  fanout_exclusion_correct ⟨[(1, [⟨10, 100⟩, ⟨20, 200⟩, ⟨30, 300⟩])]⟩
    [(10, ⟨true, []⟩), (20, ⟨true, []⟩), (30, ⟨true, []⟩)] 1
    ⟨10, 100⟩ ⟨20, 200⟩ ⟨30, 300⟩ ⟨"UPDATE", "tasks", 1, some 42, none⟩
    ⟨true, []⟩ ⟨true, []⟩ ⟨true, []⟩ (by decide) (by decide) (by decide)
    (by decide) (by decide) (by decide) (by decide) (by decide) (by decide)
    (by decide) (by decide)

/-- C3: `broadcast_to_user` with no exclusion appends exactly one copy of the
event to the live channel of every connection in the user's bucket, leaves
every channel outside the bucket (in particular any other user's connection's
channel) unchanged, and is a complete no-op when the user has no bucket. -/
theorem fanout_no_exclusion_correct (st : WebSocketState) (chans : Chans)
    (u : Nat) (E : WebSocketMessage) :
    (∀ conns, st.lookupBucket u = some conns →
      (conns.map WebSocketConnection.tx).Nodup →
      (∀ c ∈ conns, ∀ ch, lookupChan chans c.tx = some ch → ch.alive = true →
        lookupChan (st.broadcast_to_user chans u E none).2 c.tx =
          some { ch with buffer := ch.buffer ++ [E] }) ∧
      (∀ (v : Nat) (cs' : List WebSocketConnection), v ≠ u →
        st.lookupBucket v = some cs' → ∀ c' ∈ cs',
        c'.tx ∉ conns.map WebSocketConnection.tx →
        lookupChan (st.broadcast_to_user chans u E none).2 c'.tx =
          lookupChan chans c'.tx)) ∧
    (st.lookupBucket u = none → st.broadcast_to_user chans u E none = (st, chans)) := by
  constructor
  · intro conns hb hnd
    have hbr : (st.broadcast_to_user chans u E none).2 =
        sendAll chans conns E none := by
      unfold WebSocketState.broadcast_to_user
      rw [hb]
    constructor
    · intro c hc ch hch ha
      rw [hbr, sendAll_lookupChan conns chans E none c.tx hnd,
        offeredB_of_mem conns none c hc rfl, if_pos rfl, hch]
      simp [sendOne, ha]
    · intro v cs' _ _ c' _ hout
      rw [hbr, sendAll_lookupChan conns chans E none c'.tx hnd,
        offeredB_of_not_mem conns none c'.tx hout]
      simp
  · intro hnone
    unfold WebSocketState.broadcast_to_user
    rw [hnone]

theorem fanout_no_exclusion_correct_witness :
    (lookupChan ((WebSocketState.mk
        [(1, [⟨10, 100⟩]), (2, [⟨50, 500⟩])]).broadcast_to_user
        [(10, ⟨true, []⟩), (50, ⟨true, []⟩)] 1
        ⟨"DELETE", "projects", 1, some 7, none⟩ none).2 10 =
      some ⟨true, [⟨"DELETE", "projects", 1, some 7, none⟩]⟩) ∧
    (lookupChan ((WebSocketState.mk
        [(1, [⟨10, 100⟩]), (2, [⟨50, 500⟩])]).broadcast_to_user
        [(10, ⟨true, []⟩), (50, ⟨true, []⟩)] 1
        ⟨"DELETE", "projects", 1, some 7, none⟩ none).2 50 =
      lookupChan [(10, ⟨true, []⟩), (50, ⟨true, []⟩)] 50) ∧
    ((WebSocketState.mk [(1, [⟨10, 100⟩]), (2, [⟨50, 500⟩])]).broadcast_to_user
        [(10, ⟨true, []⟩), (50, ⟨true, []⟩)] 9
        ⟨"DELETE", "projects", 1, some 7, none⟩ none =
      (WebSocketState.mk [(1, [⟨10, 100⟩]), (2, [⟨50, 500⟩])],
        [(10, ⟨true, []⟩), (50, ⟨true, []⟩)])) := by
  have hsome := (fanout_no_exclusion_correct
    ⟨[(1, [⟨10, 100⟩]), (2, [⟨50, 500⟩])]⟩
    [(10, ⟨true, []⟩), (50, ⟨true, []⟩)] 1
    ⟨"DELETE", "projects", 1, some 7, none⟩).1 [⟨10, 100⟩] (by decide) (by decide)
  have hnone := (fanout_no_exclusion_correct
    ⟨[(1, [⟨10, 100⟩]), (2, [⟨50, 500⟩])]⟩
    [(10, ⟨true, []⟩), (50, ⟨true, []⟩)] 9
    ⟨"DELETE", "projects", 1, some 7, none⟩).2 (by decide)
  refine ⟨?_, ?_, hnone⟩
  · exact hsome.1 ⟨10, 100⟩ (by decide) ⟨true, []⟩ (by decide) (by decide)
  · exact hsome.2 2 [⟨50, 500⟩] (by decide) (by decide) ⟨50, 500⟩ (by decide)
      (by decide)

/-- C4: during one fan-out, a connection whose channel send fails (no live
receiver) just loses that event — its channel is unchanged — while every
sibling with a live, distinct channel that is not excluded still gets exactly
one copy, and the call returns the registry unchanged and no error. -/
theorem fanout_delivery_failure_isolated (st : WebSocketState) (chans : Chans)
    (u : Nat) (E : WebSocketMessage) (ex : Option Nat)
    (conns : List WebSocketConnection) (c : WebSocketConnection)
    (chc : BroadcastChannel)
    (hb : st.lookupBucket u = some conns)
    (hnd : (conns.map WebSocketConnection.tx).Nodup)
    (hcmem : c ∈ conns)
    (hcch : lookupChan chans c.tx = some chc)
    (hdead : chc.alive = false) :
    lookupChan (st.broadcast_to_user chans u E ex).2 c.tx = some chc ∧
    (∀ c' ∈ conns, c'.tx ≠ c.tx → excludedB ex c' = false →
      ∀ ch', lookupChan chans c'.tx = some ch' → ch'.alive = true →
        lookupChan (st.broadcast_to_user chans u E ex).2 c'.tx =
          some { ch' with buffer := ch'.buffer ++ [E] }) ∧
    (st.broadcast_to_user chans u E ex).1 = st := by
  have hbr : (st.broadcast_to_user chans u E ex).2 = sendAll chans conns E ex := by
    unfold WebSocketState.broadcast_to_user
    rw [hb]
  refine ⟨?_, ?_, broadcast_registry_unchanged st chans u E ex⟩
  · rw [hbr, sendAll_lookupChan conns chans E ex c.tx hnd]
    by_cases hoff : offeredB conns ex c.tx
    · rw [hoff, if_pos rfl, hcch]
      simp [sendOne, hdead]
    · rw [if_neg hoff]
      exact hcch
  · intro c' hc' _ hex ch' hch' ha'
    rw [hbr, sendAll_lookupChan conns chans E ex c'.tx hnd,
      offeredB_of_mem conns ex c' hc' hex, if_pos rfl, hch']
    simp [sendOne, ha']

theorem fanout_delivery_failure_isolated_witness :
    lookupChan ((WebSocketState.mk
        [(1, [⟨10, 100⟩, ⟨20, 200⟩])]).broadcast_to_user
        [(10, ⟨false, []⟩), (20, ⟨true, []⟩)] 1
        ⟨"INSERT", "calendars", 1, none, none⟩ none).2 10 = some ⟨false, []⟩ ∧
    lookupChan ((WebSocketState.mk
        [(1, [⟨10, 100⟩, ⟨20, 200⟩])]).broadcast_to_user
        [(10, ⟨false, []⟩), (20, ⟨true, []⟩)] 1
        ⟨"INSERT", "calendars", 1, none, none⟩ none).2 20 =
      some ⟨true, [⟨"INSERT", "calendars", 1, none, none⟩]⟩ := by
  have h := fanout_delivery_failure_isolated
    ⟨[(1, [⟨10, 100⟩, ⟨20, 200⟩])]⟩ [(10, ⟨false, []⟩), (20, ⟨true, []⟩)] 1
    ⟨"INSERT", "calendars", 1, none, none⟩ none [⟨10, 100⟩, ⟨20, 200⟩]
    ⟨10, 100⟩ ⟨false, []⟩ (by decide) (by decide) (by decide) (by decide)
    (by decide)
  exact ⟨h.1, h.2.1 ⟨20, 200⟩ (by decide) (by decide) (by decide) ⟨true, []⟩
    (by decide) (by decide)⟩

/-! Claim theorems for the session (handshake and lifecycle). -/

/-- C8: whenever authentication of the first inbound frame fails — no frame,
receive error, non-text frame, malformed JSON, missing `token` field, or a
token the verifier rejects (all the cases in which `authUser` resolves no
user) — the session writes exactly one `auth_error` frame, returns (closing
the connection), and the registry is never touched. -/
theorem auth_failure_no_registration (st : WebSocketState) (chans : Chans)
    (verify : String → Option Nat) (firstFrame : Option (Except Unit Frame))
    (cid : Nat) (k : ChanId) (ackOk : Bool) (le : LoopEnd)
    (hfail : authUser verify firstFrame = none) :
    (websocket_connection st chans verify firstFrame cid k ackOk le).sent =
        [OutFrame.authError] ∧
    (websocket_connection st chans verify firstFrame cid k ackOk le).st = st := by
  unfold websocket_connection
  rw [hfail]
  exact ⟨rfl, rfl⟩

theorem auth_failure_no_registration_witness :
    ((websocket_connection (WebSocketState.mk [(7, [⟨0, 3⟩])]) []
        (fun _ => none)
        (some (Except.ok (Frame.text (some (JsonVal.obj
          [("token", JsonVal.str "expired")]))))) 4 1 true
        LoopEnd.recvTaskEnded).sent = [OutFrame.authError] ∧
      (websocket_connection (WebSocketState.mk [(7, [⟨0, 3⟩])]) []
        (fun _ => none)
        (some (Except.ok (Frame.text (some (JsonVal.obj
          [("token", JsonVal.str "expired")]))))) 4 1 true
        LoopEnd.recvTaskEnded).st = WebSocketState.mk [(7, [⟨0, 3⟩])]) ∧
    ((websocket_connection (WebSocketState.mk [(7, [⟨0, 3⟩])]) []
        (fun _ => some 7) (some (Except.ok (Frame.text none))) 4 1 true
        LoopEnd.recvTaskEnded).sent = [OutFrame.authError] ∧
      (websocket_connection (WebSocketState.mk [(7, [⟨0, 3⟩])]) []
        (fun _ => some 7) (some (Except.ok (Frame.text none))) 4 1 true
        LoopEnd.recvTaskEnded).st = WebSocketState.mk [(7, [⟨0, 3⟩])]) :=
  ⟨auth_failure_no_registration ⟨[(7, [⟨0, 3⟩])]⟩ [] (fun _ => none)
      (some (Except.ok (Frame.text (some (JsonVal.obj
        [("token", JsonVal.str "expired")]))))) 4 1 true
      LoopEnd.recvTaskEnded rfl,
    auth_failure_no_registration ⟨[(7, [⟨0, 3⟩])]⟩ [] (fun _ => some 7)
      (some (Except.ok (Frame.text none))) 4 1 true
      LoopEnd.recvTaskEnded rfl⟩

/-- C1 failing-path evaluation: a session whose first frame authenticates as
user 7 (so `add_connection` runs) but whose `auth_success` acknowledgement
write fails returns with connection 3 still registered — `remove_connection`
is skipped on this exit path, so the registry entry outlives the session. On
the ack-success paths cleanup does run for every way the loop race can end. -/
theorem session_leaks_registration_on_ack_write_failure :
    (websocket_connection WebSocketState.new []
        (fun t => if t = "tok" then some 7 else none)
        (some (Except.ok (Frame.text (some (JsonVal.obj
          [("token", JsonVal.str "tok")]))))) 3 0 false
        LoopEnd.sendTaskEnded).st = WebSocketState.mk [(7, [⟨0, 3⟩])] ∧
    WebSocketState.mk [(7, [⟨0, 3⟩])] ≠ WebSocketState.new ∧
    ∀ le : LoopEnd,
      (websocket_connection WebSocketState.new []
        (fun t => if t = "tok" then some 7 else none)
        (some (Except.ok (Frame.text (some (JsonVal.obj
          [("token", JsonVal.str "tok")]))))) 3 0 true le).st =
        WebSocketState.new := by
  refine ⟨rfl, by decide, ?_⟩
  intro le
  cases le <;> rfl

end StreamlineWS
